import Mathlib

/-
  Verification development for `log_analyzer.py`, a single-file command-line
  log analyzer.  The analyzer reads a line-delimited JSON file, validates each
  line as a log entry, counts valid entries (`total`), entries with
  `status_code >= 400` (`errors`), tallies errors per endpoint in a
  `collections.Counter`, and returns the top three erroring endpoints via
  `Counter.most_common(3)`.

  Shallow embedding conventions:
  * A decoded JSON value is the inductive `Json`.  Python `dict` lookup keeps
    the last binding of a duplicated key, which `dictGet` mirrors; insertion
    order of the tally `Counter` is mirrored by the association list
    `error_counts` where `tallyIncr` appends unseen keys at the end.
  * Python's `isinstance(x, int)` is true for `bool` (bool is a subclass of
    int), which `isPyIntOpt` mirrors; `True >= 400` and `False >= 400`
    compare 1 and 0 against 400, which `pyGe400` mirrors.
  * `json.loads` (the standard-library decoder, external to the repository)
    is modelled by `jsonDecode`, a recursive-descent parser over the JSON
    fragment exercised here: objects, arrays, strings with the simple
    escapes, integers and decimal/exponent floats, true/false/null.
    Inputs outside the fragment (\u escapes, NaN/Infinity) fail in the model;
    a failing decode is exactly a skipped line in both model and program, so
    every universally quantified theorem below is insensitive to this cut.
  * Every `print(...)` in the program writes to standard output; an emission
    is modelled as a `StdStream × Diag` pair appended to the `output` field
    of the analyzer state, with `Diag` recording which warning was printed.
  * `Counter.most_common(3)` is `heapq.nlargest(3, items, key=count)`, whose
    documented semantics is the stable descending sort by count truncated to
    three elements; `most_common` below is the stable insertion sort
    `sortCountDesc` followed by `List.take 3`.
  * File-open failures (`sys.exit(1)` paths) abort before any line is
    processed and are outside the per-line model: an input file is the list
    of its lines, in order, as handed to the loop at line 72 of the source.
-/

/-- A decoded JSON value, as produced by the standard-library decoder.
`fnum` stands for any non-integral number (Python `float`): the analyzer
never reads a float's value, it only ever observes that a float is not an
`int`, so the payload is dropped. -/
inductive Json where
  | obj  : List (String × Json) → Json
  | arr  : List Json → Json
  | str  : String → Json
  | num  : Int → Json
  | fnum : Json
  | bool : Bool → Json
  | null : Json

/-- The two process output channels. Every `print` call in the source uses
standard output. -/
inductive StdStream where
  | stdout : StdStream
  | stderr : StdStream
deriving DecidableEq

def streamIsStdout : StdStream → Bool
  | StdStream.stdout => true
  | StdStream.stderr => false

/-- One diagnostic message, by the `print` site that produced it
(lines 27, 31, 35, 40, 76, 84 of the source). -/
inductive Diag where
  | missingFields : Json → Diag
  | invalidEndpointType : Json → Diag
  | invalidStatusType : Json → Diag
  | validationError : Json → Diag
  | invalidEntryAtLine : Nat → Diag
  | invalidJsonAtLine : Nat → Diag

/-- Python `dict` lookup on a decoded object: the last binding of a key wins,
matching `json.loads` duplicate-key behaviour. -/
def dictGet (kvs : List (String × Json)) (k : String) : Option Json :=
  kvs.foldl (fun acc kv => if kv.1 = k then some kv.2 else acc) none

def hasKey (kvs : List (String × Json)) (k : String) : Bool :=
  (dictGet kvs k).isSome

def tsKey : String := "timestamp"

def epKey : String := "endpoint"

def scKey : String := "status_code"

def reqKeys : List String := [tsKey, epKey, scKey]

/-- `isinstance(x, str)` on an optional field value. -/
def isStrOpt : Option Json → Bool
  | some (Json.str _) => true
  | _ => false

/-- `isinstance(x, int)` on an optional field value. Python `bool` is a
subclass of `int`, so booleans pass. -/
def isPyIntOpt : Option Json → Bool
  | some (Json.num _) => true
  | some (Json.bool _) => true
  | _ => false

/-- `x >= 400` on a value that passed `isinstance(x, int)`:
`True`/`False` compare as 1/0. The catch-all branch is unreachable after
validation. -/
def pyGe400 : Json → Bool
  | Json.num n => 400 ≤ n
  | Json.bool b => 400 ≤ (if b then (1 : Int) else 0)
  | _ => false

/-- Naive substring test, modelling Python `needle in haystack` on strings. -/
def containsSub (s pat : List Char) : Bool :=
  (List.range (s.length + 1)).any (fun i => pat.isPrefixOf (s.drop i))

/-- `'k' in entry` when `entry` is a decoded JSON array: list membership by
equality; a Python string only equals an equal string. -/
def arrHasAllKeys (xs : List Json) : Bool :=
  reqKeys.all (fun k => xs.any (fun x =>
    match x with
    | Json.str s => s = k
    | _ => false))

def strHasAllKeys (s : String) : Bool :=
  reqKeys.all (fun k => containsSub s.toList k.toList)

/-- `validate_log_entry` (source lines 16-41): returns the boolean verdict
together with the diagnostics it printed, every one to standard output.
Non-object branches trace the Python paths: for an array or string, the
membership test `k in entry` can succeed, after which the subscript
`entry['endpoint']` raises `TypeError`, caught by the blanket handler at
line 39 (`validationError`); otherwise `all(...)` is `False` and the
missing-fields warning at line 27 fires; for a number, boolean or null the
membership test itself raises, caught at line 39. Every path returns a
verdict rather than raising. Note the `timestamp` value's type is never
inspected: only its presence is required. -/
def validate_log_entry (entry : Json) : Bool × List (StdStream × Diag) :=
  match entry with
  | Json.obj kvs =>
    if !(reqKeys.all (fun k => hasKey kvs k)) then
      (false, [(StdStream.stdout, Diag.missingFields entry)])
    else if !(isStrOpt (dictGet kvs epKey)) then
      (false, [(StdStream.stdout, Diag.invalidEndpointType entry)])
    else if !(isPyIntOpt (dictGet kvs scKey)) then
      (false, [(StdStream.stdout, Diag.invalidStatusType entry)])
    else
      (true, [])
  | Json.arr xs =>
    if arrHasAllKeys xs then (false, [(StdStream.stdout, Diag.validationError entry)])
    else (false, [(StdStream.stdout, Diag.missingFields entry)])
  | Json.str s =>
    if strHasAllKeys s then (false, [(StdStream.stdout, Diag.validationError entry)])
    else (false, [(StdStream.stdout, Diag.missingFields entry)])
  | _ => (false, [(StdStream.stdout, Diag.validationError entry)])

/-- `entry['status_code'] >= 400` for a validated entry. -/
def entryStatusGe400 (entry : Json) : Bool :=
  match entry with
  | Json.obj kvs =>
    match dictGet kvs scKey with
    | some v => pyGe400 v
    | none => false
  | _ => false

/-- `entry['endpoint']` as a string; `none` is unreachable after validation. -/
def entryEndpoint (entry : Json) : Option String :=
  match entry with
  | Json.obj kvs =>
    match dictGet kvs epKey with
    | some (Json.str s) => some s
    | _ => none
  | _ => none

/-- The running aggregator of `analyze_logs` (source lines 60-61), plus the
stream of warnings printed so far. -/
structure AnalyzerState where
  total : Nat
  errors : Nat
  error_counts : List (String × Nat)
  output : List (StdStream × Diag)

def initState : AnalyzerState :=
  { total := 0, errors := 0, error_counts := [], output := [] }

/-- `error_counts[endpoint] += 1` on a `Counter`: increment in place, or
append a fresh key with count 1 at the end (insertion order preserved). -/
def tallyIncr : List (String × Nat) → String → List (String × Nat)
  | [], k => [(k, 1)]
  | kv :: rest, k =>
    if kv.1 = k then (kv.1, kv.2 + 1) :: rest else kv :: tallyIncr rest k

/-- Source lines 75-82: validate, then count. On a failed validation the
validator's own warning is printed first, then the line-76 warning. -/
def processEntry (s : AnalyzerState) (lineNum : Nat) (entry : Json) : AnalyzerState :=
  let v := validate_log_entry entry
  if v.1 then
    if entryStatusGe400 entry then
      { s with total := s.total + 1, errors := s.errors + 1,
               error_counts :=
                 match entryEndpoint entry with
                 | some ep => tallyIncr s.error_counts ep
                 | none => s.error_counts }
    else
      { s with total := s.total + 1 }
  else
    { s with output := s.output ++ v.2 ++ [(StdStream.stdout, Diag.invalidEntryAtLine lineNum)] }

/-- Python `str.strip()` whitespace set, in the ASCII range (the Unicode
whitespace additions do not occur in the inputs modelled here). -/
def isPySpace (c : Char) : Bool :=
  c = ' ' || c = '\t' || c = '\n' || c = '\x0d' || c = '\x0b' || c = '\x0c'

/-- `line.strip()`. -/
def stripChars (cs : List Char) : List Char :=
  ((cs.dropWhile isPySpace).reverse.dropWhile isPySpace).reverse

/-- JSON insignificant whitespace. -/
def isJsonWs (c : Char) : Bool :=
  c = ' ' || c = '\t' || c = '\n' || c = '\x0d'

def skipWs (cs : List Char) : List Char :=
  cs.dropWhile isJsonWs

/-- The simple JSON string escapes; \u escapes fall outside the modelled
fragment and fail. -/
def escChar : Char → Option Char
  | '"' => some '"'
  | '\\' => some '\\'
  | '/' => some '/'
  | 'b' => some (Char.ofNat 8)
  | 'f' => some (Char.ofNat 12)
  | 'n' => some '\n'
  | 'r' => some '\x0d'
  | 't' => some '\t'
  | _ => none

/-- Body of a JSON string after the opening quote. -/
def strBody (acc : List Char) : List Char → Option (String × List Char)
  | [] => none
  | '"' :: rest => some (String.mk acc.reverse, rest)
  | '\\' :: [] => none
  | '\\' :: e :: rest =>
    match escChar e with
    | some c => strBody (c :: acc) rest
    | none => none
  | c :: rest => strBody (c :: acc) rest

def trueLit : List Char := ['t', 'r', 'u', 'e']

def falseLit : List Char := ['f', 'a', 'l', 's', 'e']

def nullLit : List Char := ['n', 'u', 'l', 'l']

def expectLit (lit : List Char) (cs : List Char) (v : Json) : Option (Json × List Char) :=
  if lit.isPrefixOf cs then some (v, cs.drop lit.length) else none

def natOfDigits (ds : List Char) : Nat :=
  ds.foldl (fun a c => a * 10 + (c.toNat - 48)) 0

/-- Exponent part after `e`/`E`: optional sign, at least one digit. -/
def parseExpRest (cs : List Char) : Option (List Char) :=
  let cs1 :=
    match cs with
    | '+' :: r => r
    | '-' :: r => r
    | r => r
  if (cs1.takeWhile Char.isDigit).isEmpty then none
  else some (cs1.dropWhile Char.isDigit)

/-- A JSON number: integral numbers decode to Python `int` (`Json.num`),
anything with a fraction or exponent to `float` (`Json.fnum`). -/
def parseNumber (cs : List Char) : Option (Json × List Char) :=
  let neg :=
    match cs with
    | '-' :: _ => true
    | _ => false
  let cs1 :=
    match cs with
    | '-' :: r => r
    | r => r
  let intDigits := cs1.takeWhile Char.isDigit
  let rest1 := cs1.dropWhile Char.isDigit
  if intDigits.isEmpty then none
  else if intDigits.length > 1 && intDigits.headD 'x' = '0' then none
  else
    match rest1 with
    | '.' :: r2 =>
      let fd := r2.takeWhile Char.isDigit
      let r3 := r2.dropWhile Char.isDigit
      if fd.isEmpty then none
      else
        match r3 with
        | 'e' :: r4 => (parseExpRest r4).map (fun r => (Json.fnum, r))
        | 'E' :: r4 => (parseExpRest r4).map (fun r => (Json.fnum, r))
        | _ => some (Json.fnum, r3)
    | 'e' :: r4 => (parseExpRest r4).map (fun r => (Json.fnum, r))
    | 'E' :: r4 => (parseExpRest r4).map (fun r => (Json.fnum, r))
    | _ =>
      let v : Int := Int.ofNat (natOfDigits intDigits)
      some (Json.num (if neg then -v else v), rest1)

mutual

/-- Recursive-descent JSON value parser; the fuel argument only bounds
recursion depth and is chosen generously at the top level. -/
def parseValue : Nat → List Char → Option (Json × List Char)
  | 0, _ => none
  | Nat.succ fuel, cs0 =>
    match skipWs cs0 with
    | [] => none
    | c :: rest =>
      if c = '\x7b' then
        match skipWs rest with
        | '\x7d' :: r2 => some (Json.obj [], r2)
        | cs2 => parseMembers fuel cs2 []
      else if c = '[' then
        match skipWs rest with
        | ']' :: r2 => some (Json.arr [], r2)
        | cs2 => parseElems fuel cs2 []
      else if c = '"' then
        match strBody [] rest with
        | some (s, r2) => some (Json.str s, r2)
        | none => none
      else if c = 't' then expectLit trueLit (c :: rest) (Json.bool true)
      else if c = 'f' then expectLit falseLit (c :: rest) (Json.bool false)
      else if c = 'n' then expectLit nullLit (c :: rest) Json.null
      else parseNumber (c :: rest)

/-- Members of a non-empty JSON object. -/
def parseMembers : Nat → List Char → List (String × Json) → Option (Json × List Char)
  | 0, _, _ => none
  | Nat.succ fuel, cs, acc =>
    match cs with
    | '"' :: rest =>
      match strBody [] rest with
      | some (k, r2) =>
        match skipWs r2 with
        | ':' :: r3 =>
          match parseValue fuel (skipWs r3) with
          | some (v, r4) =>
            match skipWs r4 with
            | ',' :: r5 => parseMembers fuel (skipWs r5) (acc ++ [(k, v)])
            | '\x7d' :: r5 => some (Json.obj (acc ++ [(k, v)]), r5)
            | _ => none
          | none => none
        | _ => none
      | none => none
    | _ => none

/-- Elements of a non-empty JSON array. -/
def parseElems : Nat → List Char → List Json → Option (Json × List Char)
  | 0, _, _ => none
  | Nat.succ fuel, cs, acc =>
    match parseValue fuel cs with
    | some (v, r) =>
      match skipWs r with
      | ',' :: r2 => parseElems fuel (skipWs r2) (acc ++ [v])
      | ']' :: r2 => some (Json.arr (acc ++ [v]), r2)
      | _ => none
    | none => none

end

/-- `json.loads` on the modelled fragment: one JSON value, nothing but
whitespace around it. -/
def jsonDecode (cs : List Char) : Option Json :=
  match parseValue (cs.length + 1) cs with
  | some (v, rest) => if (skipWs rest).isEmpty then some v else none
  | none => none

/-- One iteration of the loop at source lines 72-88 on the line `line`
numbered `lineNum`: strip, decode, validate, count; a failed decode prints
the line-84 warning and leaves the counts alone. -/
def processLine (s : AnalyzerState) (lineNum : Nat) (line : String) : AnalyzerState :=
  match jsonDecode (stripChars line.toList) with
  | some entry => processEntry s lineNum entry
  | none => { s with output := s.output ++ [(StdStream.stdout, Diag.invalidJsonAtLine lineNum)] }

/-- The whole loop, lines numbered from `n` (the source enumerates from 1). -/
def runLines : AnalyzerState → Nat → List String → AnalyzerState
  | s, _, [] => s
  | s, n, line :: rest => runLines (processLine s n line) (n + 1) rest

/-- Stable insertion, descending by count: `p` goes in front of the first
element whose count is not larger, so earlier elements win ties. -/
def insertDesc (p : String × Nat) : List (String × Nat) → List (String × Nat)
  | [] => [p]
  | q :: rest => if p.2 < q.2 then q :: insertDesc p rest else p :: q :: rest

/-- Stable sort by count descending: the semantics of
`sorted(items, key=itemgetter(1), reverse=True)`, which `heapq.nlargest`
matches. -/
def sortCountDesc : List (String × Nat) → List (String × Nat)
  | [] => []
  | p :: rest => insertDesc p (sortCountDesc rest)

/-- `Counter.most_common(n)`. -/
def most_common (t : List (String × Nat)) (n : Nat) : List (String × Nat) :=
  (sortCountDesc t).take n

/-- `analyze_logs` on an opened file, given as its list of lines: the
returned triple of source line 90. -/
def analyze_logs (file : List String) : Nat × Nat × List (String × Nat) :=
  let s := runLines initState 1 file
  (s.total, s.errors, most_common s.error_counts 3)

/-- The final error tally of a run. -/
def tallyOf (file : List String) : List (String × Nat) :=
  (runLines initState 1 file).error_counts

/-- All warnings printed while analyzing a file. -/
def outputOf (file : List String) : List (StdStream × Diag) :=
  (runLines initState 1 file).output

def sumTally (t : List (String × Nat)) : Nat :=
  (t.map Prod.snd).sum

/-- The aggregator invariants of the specification. -/
def invariantHolds (s : AnalyzerState) : Prop :=
  s.errors ≤ s.total ∧ sumTally s.error_counts = s.errors

/-- Whether a line is counted into `total`: it decodes and validates. -/
def lineValid (line : String) : Bool :=
  match jsonDecode (stripChars line.toList) with
  | some entry => (validate_log_entry entry).1
  | none => false

/-- The endpoint a line charges an error to, when it does. -/
def lineErrIncr (line : String) : Option String :=
  match jsonDecode (stripChars line.toList) with
  | some entry =>
    if (validate_log_entry entry).1 then
      if entryStatusGe400 entry then entryEndpoint entry else none
    else none
  | none => none

/-- The sequence of per-error endpoint charges of a file, in file order. -/
def errorEndpoints (file : List String) : List String :=
  file.filterMap lineErrIncr

/-- A line the loop skips: decode failure or failed validation. -/
def skippedLine (line : String) : Bool :=
  match jsonDecode (stripChars line.toList) with
  | some entry => !(validate_log_entry entry).1
  | none => true

def dedupFirstAux (seen : List String) : List String → List String
  | [] => []
  | x :: xs =>
    if x ∈ seen then dedupFirstAux seen xs
    else x :: dedupFirstAux (seen ++ [x]) xs

/-- First occurrences of a list of strings, in order of first appearance. -/
def dedupFirst (l : List String) : List String :=
  dedupFirstAux [] l

def lineNotJson : String := "not json"

def lineB1 : String := "\x7b\"timestamp\":\"t1\",\"endpoint\":\"/a\",\"status_code\":200\x7d"

def lineB2 : String := "\x7b\"timestamp\":\"t2\",\"endpoint\":\"/a\",\"status_code\":500\x7d"

def lineDa : String := "\x7b\"timestamp\":\"t\",\"endpoint\":\"/a\",\"status_code\":500\x7d"

def lineDb : String := "\x7b\"timestamp\":\"t\",\"endpoint\":\"/b\",\"status_code\":500\x7d"

def lineDc : String := "\x7b\"timestamp\":\"t\",\"endpoint\":\"/c\",\"status_code\":500\x7d"

def lineDd : String := "\x7b\"timestamp\":\"t\",\"endpoint\":\"/d\",\"status_code\":500\x7d"

def lineDe : String := "\x7b\"timestamp\":\"t\",\"endpoint\":\"/e\",\"status_code\":500\x7d"

def scenarioD : List String := [lineDa, lineDb, lineDc, lineDd, lineDe]

def lineBadTs : String := "\x7b\"timestamp\":5,\"endpoint\":\"/a\",\"status_code\":200\x7d"

def entryBadTs : Json :=
  Json.obj [(tsKey, Json.num 5), (epKey, Json.str "/a"), (scKey, Json.num 200)]

/-- An entry whose `status_code` is the JSON boolean `true`. -/
def kvsBoolSc : List (String × Json) :=
  [(tsKey, Json.str "t"), (epKey, Json.str "/a"), (scKey, Json.bool true)]

def lineWs : String := " \t "

/-- Replaying a sequence of per-error endpoint charges into a tally. -/
def foldIncr (t : List (String × Nat)) (es : List String) : List (String × Nat) :=
  es.foldl tallyIncr t

/-- The ordering relation of the ranked list: counts are non-increasing. -/
def cntGe (p q : String × Nat) : Prop :=
  q.2 ≤ p.2

def isObjJ : Json → Bool
  | Json.obj _ => true
  | _ => false

/-- A successful validation can only come from the final branch of the
object case: all three keys present, `endpoint` a string, `status_code` a
Python int. -/
theorem validate_true_elim (e : Json) (h : (validate_log_entry e).1 = true) :
    ∃ kvs, e = Json.obj kvs ∧ reqKeys.all (fun k => hasKey kvs k) = true ∧
      isStrOpt (dictGet kvs epKey) = true ∧ isPyIntOpt (dictGet kvs scKey) = true := by
  cases e with
  | obj kvs =>
    simp only [validate_log_entry, apply_ite Prod.fst] at h
    split_ifs at h with h1 h2 h3
    refine ⟨kvs, rfl, ?_, ?_, ?_⟩
    · simpa using h1
    · simpa using h2
    · simpa using h3
  | arr xs => simp [validate_log_entry, apply_ite Prod.fst] at h
  | str s => simp [validate_log_entry, apply_ite Prod.fst] at h
  | num n => simp [validate_log_entry] at h
  | fnum => simp [validate_log_entry] at h
  | bool b => simp [validate_log_entry] at h
  | null => simp [validate_log_entry] at h

theorem isStrOpt_isSome (o : Option Json) (h : isStrOpt o = true) : o.isSome = true := by
  cases o with
  | none => simp [isStrOpt] at h
  | some v => rfl

theorem isPyIntOpt_isSome (o : Option Json) (h : isPyIntOpt o = true) : o.isSome = true := by
  cases o with
  | none => simp [isPyIntOpt] at h
  | some v => rfl

/-- Conversely, an entry satisfying the three checks validates. -/
theorem validate_obj_true (kvs : List (String × Json))
    (h1 : hasKey kvs tsKey = true)
    (h2 : isStrOpt (dictGet kvs epKey) = true)
    (h3 : isPyIntOpt (dictGet kvs scKey) = true) :
    (validate_log_entry (Json.obj kvs)).1 = true := by
  have hep : hasKey kvs epKey = true := isStrOpt_isSome _ h2
  have hsc : hasKey kvs scKey = true := isPyIntOpt_isSome _ h3
  simp [validate_log_entry, reqKeys, h1, hep, hsc, h2, h3]

/-- A validated entry has a string endpoint. -/
theorem validate_true_endpoint (e : Json) (h : (validate_log_entry e).1 = true) :
    ∃ ep, entryEndpoint e = some ep := by
  obtain ⟨kvs, rfl, -, hep, -⟩ := validate_true_elim e h
  cases hd : dictGet kvs epKey with
  | none => rw [hd] at hep; exact absurd hep (by simp [isStrOpt])
  | some v =>
    rw [hd] at hep
    cases v
    case str s => exact ⟨s, by simp [entryEndpoint, hd]⟩
    all_goals simp [isStrOpt] at hep

/-- What one loop iteration does to the three counters l it increments
`total` exactly on valid lines, `errors` exactly on error lines, and charges
the tally exactly per `lineErrIncr`. -/
theorem processLine_char (s : AnalyzerState) (n : Nat) (line : String) :
    (processLine s n line).total = s.total + (if lineValid line = true then 1 else 0) ∧
    (processLine s n line).errors = s.errors + (if (lineErrIncr line).isSome then 1 else 0) ∧
    (processLine s n line).error_counts =
      (match lineErrIncr line with
       | some ep => tallyIncr s.error_counts ep
       | none => s.error_counts) := by
  unfold processLine lineValid lineErrIncr
  cases hdec : jsonDecode (stripChars line.toList) with
  | none => simp
  | some entry =>
    unfold processEntry
    cases hv : (validate_log_entry entry).1 with
    | false => simp [hv]
    | true =>
      cases hge : entryStatusGe400 entry with
      | false => simp [hv, hge]
      | true =>
        obtain ⟨ep, hep⟩ := validate_true_endpoint entry hv
        simp [hv, hge, hep]

/-- A charged line is a counted line. -/
theorem lineErrIncr_valid (line : String) (h : (lineErrIncr line).isSome = true) :
    lineValid line = true := by
  unfold lineErrIncr at h
  unfold lineValid
  cases hdec : jsonDecode (stripChars line.toList) with
  | none => rw [hdec] at h; simp at h
  | some entry =>
    rw [hdec] at h
    by_cases hv : (validate_log_entry entry).1 = true
    · exact hv
    · simp [hv] at h

/-- A skipped line is neither counted nor charged. -/
theorem skippedLine_elim (line : String) (h : skippedLine line = true) :
    lineValid line = false ∧ lineErrIncr line = none := by
  unfold skippedLine at h
  unfold lineValid lineErrIncr
  cases hdec : jsonDecode (stripChars line.toList) with
  | none => simp
  | some entry =>
    rw [hdec] at h
    simp at h
    simp [h]

theorem sumTally_tallyIncr (t : List (String × Nat)) (k : String) :
    sumTally (tallyIncr t k) = sumTally t + 1 := by
  induction t with
  | nil => simp [tallyIncr, sumTally]
  | cons kv rest ih =>
    by_cases h : kv.1 = k
    · simp [tallyIncr, h, sumTally]
      omega
    · simp [tallyIncr, h, sumTally] at *
      omega

theorem keys_tallyIncr_mem (t : List (String × Nat)) (k : String)
    (h : k ∈ t.map Prod.fst) :
    (tallyIncr t k).map Prod.fst = t.map Prod.fst := by
  induction t with
  | nil => simp at h
  | cons kv rest ih =>
    by_cases hk : kv.1 = k
    · simp [tallyIncr, hk]
    · have h' : k ∈ rest.map Prod.fst := by
        rw [List.map_cons] at h
        rcases List.mem_cons.mp h with h1 | h1
        · exact (hk h1.symm).elim
        · exact h1
      simp [tallyIncr, hk, ih h']

theorem keys_tallyIncr_new (t : List (String × Nat)) (k : String)
    (h : k ∉ t.map Prod.fst) :
    (tallyIncr t k).map Prod.fst = t.map Prod.fst ++ [k] := by
  induction t with
  | nil => simp [tallyIncr]
  | cons kv rest ih =>
    simp only [List.map_cons, List.mem_cons] at h
    push_neg at h
    obtain ⟨h1, h2⟩ := h
    have hk : ¬ kv.1 = k := fun e => h1 e.symm
    simp [tallyIncr, hk, ih h2]

/-- One loop iteration preserves the aggregator invariants. -/
theorem processLine_invariant (s : AnalyzerState) (n : Nat) (line : String)
    (h : invariantHolds s) : invariantHolds (processLine s n line) := by
  obtain ⟨h1, h2⟩ := h
  obtain ⟨ht, he, hc⟩ := processLine_char s n line
  cases hi : lineErrIncr line with
  | none =>
    rw [hi] at he hc
    simp only [Option.isSome_none, Bool.false_eq_true, if_false] at he
    constructor
    · rw [ht, he]
      split_ifs <;> omega
    · rw [hc, he, h2]
      omega
  | some ep =>
    have hval : lineValid line = true := lineErrIncr_valid line (by rw [hi]; rfl)
    rw [hi] at he hc
    simp only [Option.isSome_some, if_true] at he
    constructor
    · rw [ht, he, hval]
      simp
      omega
    · rw [hc, he, sumTally_tallyIncr, h2]

/-- The whole loop preserves the aggregator invariants. -/
theorem runLines_invariant (s : AnalyzerState) (n : Nat) (ls : List String)
    (h : invariantHolds s) : invariantHolds (runLines s n ls) := by
  induction ls generalizing s n with
  | nil => exact h
  | cons line rest ih => exact ih _ _ (processLine_invariant s n line h)

/-- The final tally is the replay of the file's error charges. -/
theorem runLines_tally (s : AnalyzerState) (n : Nat) (ls : List String) :
    (runLines s n ls).error_counts = foldIncr s.error_counts (ls.filterMap lineErrIncr) := by
  induction ls generalizing s n with
  | nil => simp [runLines, foldIncr]
  | cons line rest ih =>
    rw [runLines, ih]
    obtain ⟨-, -, hc⟩ := processLine_char s n line
    cases hi : lineErrIncr line with
    | none =>
      rw [hi] at hc
      rw [hc, List.filterMap_cons, hi]
    | some ep =>
      rw [hi] at hc
      rw [hc, List.filterMap_cons, hi]
      rfl

theorem foldIncr_keys (es : List String) (t : List (String × Nat)) :
    (foldIncr t es).map Prod.fst = t.map Prod.fst ++ dedupFirstAux (t.map Prod.fst) es := by
  induction es generalizing t with
  | nil => simp [foldIncr, dedupFirstAux]
  | cons e es ih =>
    have hstep : foldIncr t (e :: es) = foldIncr (tallyIncr t e) es := rfl
    rw [hstep, ih]
    by_cases hm : e ∈ t.map Prod.fst
    · rw [keys_tallyIncr_mem t e hm, dedupFirstAux]
      simp [hm]
    · rw [keys_tallyIncr_new t e hm, dedupFirstAux]
      simp [hm]

/-- The tally's keys are the erroring endpoints in order of first error
occurrence in the file. -/
theorem tallyOf_keys (file : List String) :
    (tallyOf file).map Prod.fst = dedupFirst (errorEndpoints file) := by
  rw [tallyOf, runLines_tally, errorEndpoints, dedupFirst]
  simpa using foldIncr_keys (file.filterMap lineErrIncr) []

theorem tallyOf_length (file : List String) :
    (tallyOf file).length = (dedupFirst (errorEndpoints file)).length := by
  have h := congrArg List.length (tallyOf_keys file)
  simpa using h

/-- A run over only skipped lines leaves the three counters alone. -/
theorem runLines_skipped (s : AnalyzerState) (n : Nat) (ls : List String)
    (h : ∀ l ∈ ls, skippedLine l = true) :
    (runLines s n ls).total = s.total ∧ (runLines s n ls).errors = s.errors ∧
    (runLines s n ls).error_counts = s.error_counts := by
  induction ls generalizing s n with
  | nil => exact ⟨rfl, rfl, rfl⟩
  | cons line rest ih =>
    obtain ⟨hval, hinc⟩ := skippedLine_elim line (h line (List.mem_cons_self line rest))
    obtain ⟨ht, he, hc⟩ := processLine_char s n line
    rw [hval] at ht
    rw [hinc] at he hc
    simp only [Bool.false_eq_true, if_false, Option.isSome_none, Nat.add_zero] at ht he
    obtain ⟨rt, re, rc⟩ := ih (processLine s n line) (n + 1) (fun l hl => h l (List.mem_cons_of_mem line hl))
    rw [runLines]
    exact ⟨by rw [rt, ht], by rw [re, he], by rw [rc, hc]⟩

theorem insertDesc_perm (p : String × Nat) (l : List (String × Nat)) :
    (insertDesc p l).Perm (p :: l) := by
  induction l with
  | nil => exact List.Perm.refl _
  | cons q rest ih =>
    rw [insertDesc]
    split_ifs with hlt
    · exact (ih.cons q).trans (List.Perm.swap p q rest)
    · exact List.Perm.refl _

theorem sortCountDesc_perm (l : List (String × Nat)) : (sortCountDesc l).Perm l := by
  induction l with
  | nil => exact List.Perm.refl _
  | cons p rest ih => exact (insertDesc_perm p (sortCountDesc rest)).trans (ih.cons p)

theorem insertDesc_pairwise (p : String × Nat) (l : List (String × Nat))
    (h : List.Pairwise cntGe l) : List.Pairwise cntGe (insertDesc p l) := by
  induction l with
  | nil => simp [insertDesc]
  | cons q rest ih =>
    rw [insertDesc]
    rcases List.pairwise_cons.mp h with ⟨hq, hrest⟩
    split_ifs with hlt
    · refine List.pairwise_cons.mpr ⟨?_, ih hrest⟩
      intro y hy
      rcases List.mem_cons.mp ((insertDesc_perm p rest).mem_iff.mp hy) with rfl | hy
      · exact Nat.le_of_lt hlt
      · exact hq y hy
    · refine List.pairwise_cons.mpr ⟨?_, List.pairwise_cons.mpr ⟨hq, hrest⟩⟩
      intro y hy
      rcases List.mem_cons.mp hy with rfl | hy
      · exact Nat.le_of_not_lt hlt
      · exact Nat.le_trans (hq y hy) (Nat.le_of_not_lt hlt)

theorem sortCountDesc_pairwise (l : List (String × Nat)) :
    List.Pairwise cntGe (sortCountDesc l) := by
  induction l with
  | nil => exact List.Pairwise.nil
  | cons p rest ih => exact insertDesc_pairwise p _ ih

/-- Insertion is invisible to any single count class beyond putting the new
element first: the base fact behind stability. -/
theorem insertDesc_filter (p : String × Nat) (l : List (String × Nat)) (c : Nat) :
    (insertDesc p l).filter (fun q => q.2 == c) =
      if p.2 = c then p :: l.filter (fun q => q.2 == c)
      else l.filter (fun q => q.2 == c) := by
  induction l with
  | nil => by_cases h : p.2 = c <;> simp [insertDesc, h]
  | cons q rest ih =>
    by_cases hlt : p.2 < q.2
    · by_cases hpc : p.2 = c
      · have hqc : ¬ q.2 = c := by omega
        rw [insertDesc, if_pos hlt]
        simp [List.filter_cons, hqc, ih, hpc]
      · rw [insertDesc, if_pos hlt]
        by_cases hqc : q.2 = c <;> simp [List.filter_cons, hqc, ih, hpc]
    · rw [insertDesc, if_neg hlt]
      by_cases hpc : p.2 = c <;> simp [List.filter_cons, hpc]

/-- Stability of the sort: each count class keeps its input order. -/
theorem sortCountDesc_filter (l : List (String × Nat)) (c : Nat) :
    (sortCountDesc l).filter (fun q => q.2 == c) = l.filter (fun q => q.2 == c) := by
  induction l with
  | nil => rfl
  | cons p rest ih =>
    rw [sortCountDesc, insertDesc_filter]
    by_cases h : p.2 = c <;> simp [List.filter_cons, h, ih]

/-- Every warning the validator prints goes to standard output. -/
theorem validate_output_stdout (e : Json) :
    ∀ x ∈ (validate_log_entry e).2, x.1 = StdStream.stdout := by
  cases e <;> simp only [validate_log_entry] <;> (try split_ifs) <;> simp

/-- One loop iteration only ever appends standard-output warnings. -/
theorem processLine_stdout (s : AnalyzerState) (n : Nat) (line : String)
    (h : ∀ x ∈ s.output, x.1 = StdStream.stdout) :
    ∀ x ∈ (processLine s n line).output, x.1 = StdStream.stdout := by
  unfold processLine
  cases jsonDecode (stripChars line.toList) with
  | none =>
    intro x hx
    rcases List.mem_append.mp hx with hx | hx
    · exact h x hx
    · simp at hx
      rw [hx]
  | some entry =>
    by_cases hv : (validate_log_entry entry).1 = true
    · simp only [processEntry, hv, if_true]
      split_ifs <;> exact h
    · simp only [Bool.not_eq_true] at hv
      simp only [processEntry, hv, Bool.false_eq_true, if_false]
      intro x hx
      rcases List.mem_append.mp hx with hx | hx
      · rcases List.mem_append.mp hx with hx | hx
        · exact h x hx
        · exact validate_output_stdout entry x hx
      · simp at hx
        rw [hx]

theorem runLines_stdout (s : AnalyzerState) (n : Nat) (ls : List String)
    (h : ∀ x ∈ s.output, x.1 = StdStream.stdout) :
    ∀ x ∈ (runLines s n ls).output, x.1 = StdStream.stdout := by
  induction ls generalizing s n with
  | nil => exact h
  | cons line rest ih => exact ih _ _ (processLine_stdout s n line h)

/-- Claim C2: after processing every prefix of a file's lines the aggregator
satisfies `errors <= total` and the per-endpoint tally counts sum to
`errors`; both invariants are preserved by every per-line processing step
(valid line, invalid line, malformed line alike). -/
theorem claim_c2 :
    (∀ (file : List String) (n : Nat),
        invariantHolds (runLines initState 1 (file.take n))) ∧
    (∀ (s : AnalyzerState) (n : Nat) (line : String),
        invariantHolds s → invariantHolds (processLine s n line)) := by
  constructor
  · intro file n
    exact runLines_invariant initState 1 (file.take n) ⟨Nat.le_refl 0, rfl⟩
  · exact fun s n line h => processLine_invariant s n line h

theorem claim_c2_witness :
    invariantHolds initState ∧ invariantHolds (processLine initState 1 lineB2) :=
  ⟨⟨Nat.le_refl 0, rfl⟩, claim_c2.2 initState 1 lineB2 ⟨Nat.le_refl 0, rfl⟩⟩

/-- Claim C3: a skipped line (malformed JSON or failed validation) leaves
`total`, `errors` and the tally unchanged and processing continues; an
empty file and an all-skipped file yield `(0, 0, [])`; one invalid-JSON
line followed by one valid error entry yields `total = 1`, `errors = 1`. -/
theorem claim_c3 :
    (∀ (s : AnalyzerState) (n : Nat) (line : String), skippedLine line = true →
        (processLine s n line).total = s.total ∧
        (processLine s n line).errors = s.errors ∧
        (processLine s n line).error_counts = s.error_counts) ∧
    analyze_logs [] = (0, 0, []) ∧
    (∀ file : List String, (∀ line ∈ file, skippedLine line = true) →
        analyze_logs file = (0, 0, [])) ∧
    analyze_logs [lineNotJson, lineB2] = (1, 1, [("/a", 1)]) := by
  refine ⟨?_, rfl, ?_, by decide⟩
  · intro s n line hskip
    obtain ⟨hval, hinc⟩ := skippedLine_elim line hskip
    obtain ⟨ht, he, hc⟩ := processLine_char s n line
    rw [hval] at ht
    rw [hinc] at he hc
    simp only [Bool.false_eq_true, if_false, Option.isSome_none, Nat.add_zero] at ht he
    exact ⟨ht, he, hc⟩
  · intro file h
    obtain ⟨ht, he, hc⟩ := runLines_skipped initState 1 file h
    show ((runLines initState 1 file).total, (runLines initState 1 file).errors,
      most_common (runLines initState 1 file).error_counts 3) = (0, 0, [])
    rw [ht, he, hc]
    rfl

theorem claim_c3_witness :
    skippedLine lineNotJson = true ∧
    (processLine initState 1 lineNotJson).total = initState.total ∧
    analyze_logs [lineNotJson] = (0, 0, []) :=
  ⟨rfl, (claim_c3.1 initState 1 lineNotJson rfl).1,
    claim_c3.2.2.1 [lineNotJson] (by decide)⟩

/-- Claim C6: the validator returns a verdict on every decoded JSON value
(it is a total function in the model because the source catches every
exception internally), and every non-object value — array, string, number,
boolean or null — is judged invalid, so a non-object line is never counted
into `total`, `errors` or the tally. -/
theorem claim_c6 (j : Json) (h : isObjJ j = false) :
    (validate_log_entry j).1 = false ∧
    ∀ (s : AnalyzerState) (n : Nat),
      (processEntry s n j).total = s.total ∧
      (processEntry s n j).errors = s.errors ∧
      (processEntry s n j).error_counts = s.error_counts := by
  have hv : (validate_log_entry j).1 = false := by
    cases j with
    | obj kvs => simp [isObjJ] at h
    | arr xs =>
      simp only [validate_log_entry]
      split_ifs <;> rfl
    | str s =>
      simp only [validate_log_entry]
      split_ifs <;> rfl
    | num n => rfl
    | fnum => rfl
    | bool b => rfl
    | null => rfl
  refine ⟨hv, fun s n => ?_⟩
  simp [processEntry, hv]

theorem claim_c6_witness :
    isObjJ (Json.arr []) = false ∧ (validate_log_entry (Json.arr [])).1 = false ∧
    (processEntry initState 1 (Json.arr [])).total = 0 :=
  ⟨rfl, (claim_c6 (Json.arr []) rfl).1, ((claim_c6 (Json.arr []) rfl).2 initState 1).1⟩

/-- Claim C7: the ranked list returned by `analyze_logs` has length
`min 3 (number of distinct endpoints with at least one error)`: all
erroring endpoints when fewer than three, never more than three. -/
theorem claim_c7 (file : List String) :
    (analyze_logs file).2.2.length = min 3 (dedupFirst (errorEndpoints file)).length := by
  have h1 : (analyze_logs file).2.2 = most_common (tallyOf file) 3 := rfl
  rw [h1, most_common, List.length_take, (sortCountDesc_perm (tallyOf file)).length_eq,
    tallyOf_length]

/-- Claim C1: the top-N list is ordered by error count descending; entries
with equal counts keep the tally's first-insertion order (each count class
of the result is a prefix of the same count class of the tally), and the
tally's key order is the order of first error occurrence in the file — not
alphabetical; in particular five endpoints entered in order /a,/b,/c,/d,/e
with one error each rank as [(/a,1),(/b,1),(/c,1)]. -/
theorem claim_c1 :
    (∀ file : List String,
        List.Pairwise cntGe (analyze_logs file).2.2 ∧
        (∀ p ∈ (analyze_logs file).2.2, p ∈ tallyOf file) ∧
        (∀ c : Nat, ∃ rest,
            (analyze_logs file).2.2.filter (fun q => q.2 == c) ++ rest =
              (tallyOf file).filter (fun q => q.2 == c)) ∧
        (tallyOf file).map Prod.fst = dedupFirst (errorEndpoints file)) ∧
    analyze_logs scenarioD = (5, 5, [("/a", 1), ("/b", 1), ("/c", 1)]) := by
  constructor
  · intro file
    have h1 : (analyze_logs file).2.2 = most_common (tallyOf file) 3 := rfl
    refine ⟨?_, ?_, ?_, tallyOf_keys file⟩
    · rw [h1, most_common]
      exact List.Pairwise.sublist (List.take_sublist 3 _) (sortCountDesc_pairwise (tallyOf file))
    · intro p hp
      rw [h1, most_common] at hp
      exact (sortCountDesc_perm (tallyOf file)).mem_iff.mp (List.take_subset 3 _ hp)
    · intro c
      refine ⟨(List.drop 3 (sortCountDesc (tallyOf file))).filter (fun q => q.2 == c), ?_⟩
      rw [h1, most_common, ← List.filter_append, List.take_append_drop, sortCountDesc_filter]
  · rfl

theorem claim_c1_witness :
    ("/a", 1) ∈ (analyze_logs scenarioD).2.2 ∧ ("/a", 1) ∈ tallyOf scenarioD :=
  ⟨by decide, (claim_c1.1 scenarioD).2.1 ("/a", 1) (by decide)⟩

/-- Claim C4 fails on the code: a line whose `timestamp` is the number 5
decodes, validates and is counted into `total` — the validator checks only
the presence of `timestamp`, never its type. -/
theorem claim_c4_counterexample :
    jsonDecode (stripChars lineBadTs.toList) = some entryBadTs ∧
    (validate_log_entry entryBadTs).1 = true ∧
    analyze_logs [lineBadTs] = (1, 0, []) :=
  ⟨rfl, rfl, rfl⟩

/-- Claim C4 (amended): for a line decoding to an object with all three
required keys, a non-string `timestamp` does not invalidate the entry: the
timestamp's type is never checked, and whenever `endpoint` is a string and
`status_code` an integer the entry validates and is counted into `total`. -/
theorem claim_c4_amended (kvs : List (String × Json))
    (h1 : hasKey kvs tsKey = true)
    (h2 : isStrOpt (dictGet kvs epKey) = true)
    (h3 : isPyIntOpt (dictGet kvs scKey) = true) :
    (validate_log_entry (Json.obj kvs)).1 = true ∧
    ∀ (s : AnalyzerState) (n : Nat),
      (processEntry s n (Json.obj kvs)).total = s.total + 1 := by
  have hv := validate_obj_true kvs h1 h2 h3
  refine ⟨hv, fun s n => ?_⟩
  simp only [processEntry, hv, if_true]
  split_ifs <;> rfl

theorem claim_c4_amended_witness :
    (validate_log_entry entryBadTs).1 = true ∧
    (processEntry initState 1 entryBadTs).total = 1 :=
  ⟨(claim_c4_amended [(tsKey, Json.num 5), (epKey, Json.str "/a"), (scKey, Json.num 200)]
      rfl rfl rfl).1,
    (claim_c4_amended [(tsKey, Json.num 5), (epKey, Json.str "/a"), (scKey, Json.num 200)]
      rfl rfl rfl).2 initState 1⟩

/-- Claim C5 fails on the code: the diagnostic for a skipped line is
printed to standard output (the same stream as the final report), so it is
not on a stream distinct from stdout. -/
theorem claim_c5_counterexample :
    (outputOf [lineNotJson]).length = 1 ∧
    (outputOf [lineNotJson]).all (fun x => !(streamIsStdout x.1)) = false :=
  ⟨rfl, rfl⟩

/-- Claim C5 (amended): every diagnostic emitted for a skipped line is
routed to standard output — the very stream that carries the final
statistics report — not to a separate diagnostic stream. -/
theorem claim_c5_amended (file : List String) :
    (outputOf file).all (fun x => streamIsStdout x.1) = true := by
  rw [List.all_eq_true]
  intro x hx
  have h := runLines_stdout initState 1 file
    (fun y hy => absurd hy (List.not_mem_nil y)) x hx
  rw [h]
  rfl

/-- Claim C8: scenario B — a 200 line then a 500 line on endpoint /a yields
exactly `(2, 1, [("/a", 1)])`. -/
theorem claim_c8 : analyze_logs [lineB1, lineB2] = (2, 1, [("/a", 1)]) := rfl

/-- Claim C9: an entry whose `status_code` is the JSON boolean true or
false validates — a boolean passes the integer isinstance check — and
increments `total` but never `errors` or the tally, because True and False
compare as 1 and 0 against 400. -/
theorem claim_c9 (kvs : List (String × Json)) (b : Bool)
    (h1 : hasKey kvs tsKey = true)
    (h2 : isStrOpt (dictGet kvs epKey) = true)
    (h3 : dictGet kvs scKey = some (Json.bool b)) :
    (validate_log_entry (Json.obj kvs)).1 = true ∧
    pyGe400 (Json.bool b) = false ∧
    ∀ (s : AnalyzerState) (n : Nat),
      (processEntry s n (Json.obj kvs)).total = s.total + 1 ∧
      (processEntry s n (Json.obj kvs)).errors = s.errors ∧
      (processEntry s n (Json.obj kvs)).error_counts = s.error_counts := by
  have h3' : isPyIntOpt (dictGet kvs scKey) = true := by rw [h3]; rfl
  have hv := validate_obj_true kvs h1 h2 h3'
  have hb : pyGe400 (Json.bool b) = false := by cases b <;> rfl
  have hge : entryStatusGe400 (Json.obj kvs) = false := by
    simp only [entryStatusGe400, h3]
    exact hb
  refine ⟨hv, hb, fun s n => ?_⟩
  simp [processEntry, hv, hge]

theorem claim_c9_witness :
    (validate_log_entry (Json.obj kvsBoolSc)).1 = true ∧
    pyGe400 (Json.bool true) = false ∧
    (processEntry initState 1 (Json.obj kvsBoolSc)).total = 1 :=
  ⟨(claim_c9 kvsBoolSc true rfl rfl rfl).1,
    (claim_c9 kvsBoolSc true rfl rfl rfl).2.1,
    ((claim_c9 kvsBoolSc true rfl rfl rfl).2.2 initState 1).1⟩

/-- Claim C10: an empty or whitespace-only line strips to the empty string,
fails JSON decoding, is skipped with the malformed-JSON diagnostic for its
line number, and leaves `total`, `errors` and the tally untouched. -/
theorem claim_c10 (s : AnalyzerState) (n : Nat) (line : String)
    (h : ∀ c ∈ line.toList, isPySpace c = true) :
    stripChars line.toList = [] ∧
    jsonDecode (stripChars line.toList) = none ∧
    processLine s n line =
      { s with output := s.output ++ [(StdStream.stdout, Diag.invalidJsonAtLine n)] } := by
  have hstrip : stripChars line.toList = [] := by
    unfold stripChars
    rw [List.dropWhile_eq_nil_iff.mpr h]
    rfl
  refine ⟨hstrip, ?_, ?_⟩
  · rw [hstrip]
    rfl
  · unfold processLine
    rw [hstrip]
    rfl

theorem claim_c10_witness :
    (∀ c ∈ lineWs.toList, isPySpace c = true) ∧
    processLine initState 1 lineWs =
      { initState with output := [(StdStream.stdout, Diag.invalidJsonAtLine 1)] } :=
  ⟨by decide, (claim_c10 initState 1 lineWs (by decide)).2.2⟩
